import Mathlib

/-!
Verification of the debtor-notification application (`src/app.py`) against its
natural-language specification.

The Python source is shallowly embedded below:

* cells of the input table become the inductive `Cell` (missing / native
  numeric / text), with Python floats modelled exactly by rationals `ℚ`;
* the numeric normalizer `to_number` (app.py lines 98-113) is translated
  character-by-character, including the regex stripping and the Python
  `float()` parse (modelled by `parsePyFloat` over the residual alphabet
  of digits, period and minus, the only characters that survive the strip);
* the debtor selection (lines 291-294), the schema mapper (lines 78-96),
  the monitoring ledger (lines 16-39) and the dispatch loop of the send
  button handler (lines 380-498) are each translated into executable
  definitions; the SMTP transport and the on-disk CSV codec are external
  collaborators and are modelled at their interface (a send oracle, an
  exact load/save store).
-/

/-! ## Number normalization (`to_number`, app.py lines 98-113) -/

/-- A raw table cell: missing (`None`/`NaN`, i.e. `pd.isna` is true),
a native Python numeric, or a text cell.  Python floats are modelled by `ℚ`. -/
inductive Cell
  | none
  | num (q : ℚ)
  | str (s : String)
deriving DecidableEq

/-- Decimal digit test (the `0-9` class of the regex at app.py line 107). -/
def pyIsDigit (c : Char) : Bool :=
  decide ('0' ≤ c ∧ c ≤ '9')

/-- Value of one decimal digit character. -/
def digitVal (c : Char) : ℕ :=
  c.toNat - '0'.toNat

/-- Value of a string of decimal digits, most significant first. -/
def digitsToNat (cs : List Char) : ℕ :=
  cs.foldl (fun acc c => acc * 10 + digitVal c) 0

/-- Python `float(s)` restricted to the alphabet `{0-9, '.', '-'}`, the only
characters that survive `re.sub(r"[^0-9\.\-]", "", s)` at app.py line 107:
an optional leading minus, then either `digits`, `digits.digits?`, or
`.digits` (Python also accepts `"inf"`, `"nan"`, exponents and digit
underscores, but none of those survive the strip).  `none` models a raised
`ValueError`, which app.py line 112 turns into `0.0`.  The parsed decimal
value `n / 10 ^ e` is returned as the scaled pair `(n, e)`; `decimalVal`
casts it to `ℚ`. -/
def parsePyFloat (cs : List Char) : Option (ℤ × ℕ) :=
  let neg : Bool := match cs with | '-' :: _ => true | _ => false
  let body : List Char := match cs with | '-' :: rest => rest | _ => cs
  if body.contains '-' then Option.none
  else
    match body.splitOn '.' with
    | [ip] =>
      if ip ≠ [] ∧ ip.all pyIsDigit then
        let n : ℤ := digitsToNat ip
        Option.some (if neg then -n else n, 0)
      else Option.none
    | [ip, fp] =>
      if (ip ≠ [] ∨ fp ≠ []) ∧ ip.all pyIsDigit ∧ fp.all pyIsDigit then
        let n : ℤ := digitsToNat ip * 10 ^ fp.length + digitsToNat fp
        Option.some (if neg then -n else n, fp.length)
      else Option.none
    | _ => Option.none

/-- The rational value of a scaled decimal `(n, e)`, i.e. `n / 10 ^ e`. -/
def decimalVal (p : ℤ × ℕ) : ℚ :=
  (p.1 : ℚ) / (10 : ℚ) ^ p.2

/-- The character-level cleaning of `to_number` (app.py lines 103-107):
replace the non-breaking space by a space, delete spaces, turn the comma
decimal separator into a period, and keep only digits, period and minus. -/
def cleanNumChars (s : String) : List Char :=
  let cs := s.data.map (fun c => if c = '\u00A0' then ' ' else c)
  let cs := cs.filter (fun c => c != ' ')
  let cs := cs.map (fun c => if c = ',' then '.' else c)
  cs.filter (fun c => pyIsDigit c || c == '.' || c == '-')

/-- `to_number` (app.py lines 98-113): missing cells and parse failures give
`0.0`, native numerics are cast, text is cleaned then parsed. -/
def to_number : Cell → ℚ
  | Cell.none => 0
  | Cell.num q => q
  | Cell.str x =>
    let s := cleanNumChars x
    if s = [] ∨ s = ['.'] ∨ s = ['-'] ∨ s = ['-', '.'] ∨ s = ['.', '-'] then 0
    else
      match parsePyFloat s with
      | Option.some p => decimalVal p
      | Option.none => 0

/-! ## Debtor selection (app.py lines 291-294) -/

/-- The selection of app.py lines 291-294: `df["_debt"] = df[debt_col].apply(to_number)`
attaches the normalized debt to every row, and `debtors = df[df["_debt"] > 0]`
keeps the rows with strictly positive normalized debt, in source order.
A row is represented by its debt cell; the result pairs it with `_debt`. -/
def select_debtors (rows : List Cell) : List (Cell × ℚ) :=
  (rows.map (fun c => (c, to_number c))).filter (fun p => decide (0 < p.2))

/-! ## Column cleaning and schema mapping (app.py lines 50-96) -/

/-- Whitespace as stripped by Python `str.strip()` and matched by the `\s`
class of `re.sub` (restricted to the characters occurring in practice:
ASCII whitespace and the no-break space). -/
def pyIsSpace (c : Char) : Bool :=
  c == ' ' || c == '\t' || c == '\n' || c == '\r' ||
    c == Char.ofNat 11 || c == Char.ofNat 12 || c == ' '

/-- Python `str.lower()` restricted to the alphabets this program meets:
ASCII letters and the Cyrillic block (`А-Я` and `Ё`). -/
def pyLower (c : Char) : Char :=
  if 'A' ≤ c ∧ c ≤ 'Z' then Char.ofNat (c.toNat + 32)
  else if c = 'Ё' then 'ё'
  else if 'А' ≤ c ∧ c ≤ 'Я' then Char.ofNat (c.toNat + 32)
  else c

/-- Python `str.strip()`: drop leading and trailing whitespace. -/
def pyStrip (cs : List Char) : List Char :=
  ((cs.dropWhile pyIsSpace).reverse.dropWhile pyIsSpace).reverse

/-- The separator class `[\s\._\-]` of the `re.sub` at app.py line 80. -/
def isSepChar (c : Char) : Bool :=
  pyIsSpace c || c == '.' || c == '_' || c == '-'

/-- `re.sub(r"[\s\._\-]+", " ", s)`: replace every maximal run of separator
characters by a single space. -/
def collapseSeps : List Char → List Char
  | [] => []
  | [c] => if isSepChar c then [' '] else [c]
  | c :: d :: rest =>
    if isSepChar c then
      if isSepChar d then collapseSeps (d :: rest)
      else ' ' :: collapseSeps (d :: rest)
    else c :: collapseSeps (d :: rest)

/-- `_clean_col` (app.py lines 78-81): strip, lowercase, collapse
whitespace/period/underscore/hyphen runs to single spaces. -/
def _clean_col (s : String) : String :=
  String.mk (collapseSeps ((pyStrip s.data).map pyLower))

/-- `REQUIRED_FIELDS` (app.py lines 50-62). -/
def REQUIRED_FIELDS : List String :=
  ["Личный счет", "ФИО", "Адрес", "Период последней оплаты", "Начисления",
   "Сумма льгот", "Выставлено к оплате", "Сумма долга", "Пенни", "Дата долга",
   "Email"]

/-- `ALIASES` (app.py lines 64-76), in the dictionary's insertion order. -/
def ALIASES : List (String × List String) :=
  [("Личный счет", ["личный счет", "лицевой счет", "л/с", "лс", "account", "счет"]),
   ("ФИО", ["фио", "ф.и.о", "фамилия имя отчество", "name", "фамилия"]),
   ("Адрес", ["адрес", "address", "место проживания", "квартира", "дом"]),
   ("Период последней оплаты",
     ["период последней оплаты", "последняя оплата", "дата последней оплаты", "last payment"]),
   ("Начисления", ["начисления", "accrual", "начислено"]),
   ("Сумма льгот", ["сумма льгот", "льготы", "benefit", "скидка"]),
   ("Выставлено к оплате",
     ["выставлено к оплате", "к оплате", "итого к оплате", "to pay", "начислено к оплате"]),
   ("Сумма долга", ["сумма долга", "долг", "задолженность", "debt", "arrears"]),
   ("Пенни", ["пенни", "пени", "пеня", "penalty", "штраф"]),
   ("Дата долга", ["дата долга", "дата задолженности", "debt date", "дата образования долга"]),
   ("Email", ["email", "e-mail", "электронная почта", "почта", "mail"])]

/-- First-occurrence key deduplication, as performed by the Python dict
comprehension `{c: _clean_col(c) for c in df.columns}` at app.py line 84
(a later duplicate column name overwrites the same value, so only the
first-insertion order survives). -/
def pyDictKeysGo : List String → List String → List String
  | [], _ => []
  | c :: rest, seen =>
    if seen.contains c then pyDictKeysGo rest seen
    else c :: pyDictKeysGo rest (c :: seen)

/-- Keys of the column-cleaning dict, in first-insertion order. -/
def pyDictKeys (l : List String) : List String :=
  pyDictKeysGo l []

/-- Python truthiness of `found` in `if found: break` (app.py line 93):
`None` and the empty string are falsy. -/
def pyTruthyStr : Option String → Bool
  | Option.none => false
  | Option.some s => s != ""

/-- The inner alias loop of `auto_map_columns` (app.py lines 89-92): does
any cleaned alias occur as a substring of the cleaned column name? -/
def aliasMatches (variants : List String) (cc : String) : Bool :=
  variants.any (fun v => decide ((_clean_col v).data <:+: cc.data))

/-- The column scan for one field (app.py lines 87-94): walk the cleaned
columns in order, set `found` on a match, and break out as soon as `found`
is truthy. -/
def scanColsGo (variants : List String) : List (String × String) → Option String → Option String
  | [], found => found
  | (col, cc) :: rest, found =>
    let found' := if aliasMatches variants cc then Option.some col else found
    if pyTruthyStr found' then found' else scanColsGo variants rest found'

/-- The column scan for one field, started with `found = None`. -/
def scanCols (cols_clean : List (String × String)) (variants : List String) : Option String :=
  scanColsGo variants cols_clean Option.none

/-- `auto_map_columns` (app.py lines 83-96): for each target field (in
`ALIASES` order) the first column whose cleaned name contains a cleaned
alias; `None` when no column matches. -/
def auto_map_columns (cols : List String) : List (String × Option String) :=
  let cols_clean := (pyDictKeys cols).map (fun c => (c, _clean_col c))
  ALIASES.map (fun fv => (fv.1, scanCols cols_clean fv.2))

/-! ## Monitoring ledger (app.py lines 14-39) -/

/-- One row of `debtors_monitoring.csv` (columns at app.py lines 20-22 /
30-37): contact date, full name, debt amount, contact method, status,
comment.  Field names translate the Russian column names of the source. -/
structure MonEntry where
  contact_date : String
  fio : String
  debt : ℚ
  method : String
  status : String
  comment : String
deriving DecidableEq

/-- The persisted monitoring store: `none` when `debtors_monitoring.csv`
does not exist, otherwise the stored rows.  The pandas CSV codec is an
external collaborator (spec §1: serialization mechanics out of scope), so
the file is modelled as an exact store of its rows. -/
def MonStore : Type := Option (List MonEntry)

instance : DecidableEq MonStore := by
  unfold MonStore; infer_instance

/-- `load_monitoring_data` (app.py lines 16-23): read the file if it
exists, otherwise an empty table with the fixed columns. -/
def load_monitoring_data (fs : MonStore) : List MonEntry :=
  match fs with
  | Option.some rows => rows
  | Option.none => []

/-- `save_monitoring_data` (app.py lines 25-26): full overwrite of the
file with the given rows. -/
def save_monitoring_data (rows : List MonEntry) : MonStore :=
  Option.some rows

/-- `add_to_monitoring` (app.py lines 28-39): load, append one new entry
(timestamped with the current time `now`), save. -/
def add_to_monitoring (now fio : String) (debt : ℚ) (method status comment : String)
    (fs : MonStore) : MonStore :=
  save_monitoring_data (load_monitoring_data fs ++ [⟨now, fio, debt, method, status, comment⟩])

/-! ## Message composition (app.py lines 351-363) -/

/-- A parsed message template: literal text interleaved with `{NAME}`
placeholders. -/
inductive TemplatePart
  | lit (s : String)
  | field (name : String)
deriving DecidableEq

/-- The placeholders supplied to `template.format` at app.py lines 358-362. -/
def TEMPLATE_FIELDS : List String :=
  ["FIO", "DEBT", "TODAY", "DUE"]

/-- Grouping of the integer digits (most significant first) in threes, as
produced by the `,` option of `f"{x:,.2f}"` (app.py line 353); works on the
reversed digit list. -/
def insertThousandsRev : List Char → List Char
  | a :: b :: c :: d :: rest => a :: b :: c :: ',' :: insertThousandsRev (d :: rest)
  | l => l

/-- `format_money` (app.py lines 351-355): `f"{x:,.2f}"` with the comma
thousands separators then replaced by spaces.  The two-decimal rounding of
the IEEE double is modelled by round-half-up on the exact rational,
computed on the numerator and denominator to stay kernel-computable (no
claim depends on tie behaviour). -/
def format_money (x : ℚ) : String :=
  let cents : ℕ := (2 * (x.num.natAbs * 100) + x.den) / (2 * x.den)
  let ip := cents / 100
  let fr := cents % 100
  let ipChars := (insertThousandsRev (Nat.toDigits 10 ip).reverse).reverse
  let frChars := if fr < 10 then '0' :: Nat.toDigits 10 fr else Nat.toDigits 10 fr
  let signChars : List Char := if x < 0 then ['-'] else []
  String.mk ((signChars ++ ipChars ++ '.' :: frChars).map (fun c => if c = ',' then ' ' else c))

/-- One `template.format(...)` placeholder lookup (app.py lines 358-362):
the recognized names and their values; `none` models the `KeyError` that
`str.format` raises on an unrecognized placeholder. -/
def render_field (name fio : String) (debt : ℚ) (todayS dueS : String) : Option String :=
  if name = "FIO" then Option.some fio
  else if name = "DEBT" then Option.some (format_money debt)
  else if name = "TODAY" then Option.some todayS
  else if name = "DUE" then Option.some dueS
  else Option.none

/-- `make_body` (app.py lines 357-363): render the template left to right;
an unrecognized placeholder raises (modelled by `.error name`), which the
caller does not catch. -/
def make_body : List TemplatePart → String → String → String → ℚ → Except String String
  | [], _, _, _, _ => Except.ok ""
  | TemplatePart.lit s :: rest, todayS, dueS, fio, debt =>
    (make_body rest todayS dueS fio debt).map (fun tail => s ++ tail)
  | TemplatePart.field n :: rest, todayS, dueS, fio, debt =>
    match render_field n fio debt todayS dueS with
    | Option.none => Except.error n
    | Option.some v => (make_body rest todayS dueS fio debt).map (fun tail => v ++ tail)

/-! ## The dispatch loop (app.py lines 380-498) -/

/-- The recipient mode chosen at app.py lines 269-286: either the e-mail
from each row's mapped Email column, or one shared address for every row. -/
inductive RecipientMode
  | perRow
  | shared (common_email : String)

/-- The SMTP settings the pre-flight validation inspects (app.py
lines 386-394). -/
structure SmtpConfig where
  smtp_host : String
  from_addr : String
  smtp_user : String
  smtp_password : String

/-- One selected debtor row as read inside the loop (app.py lines 412-422):
the stripped full name, the normalized `_debt`, and the stripped raw
e-mail cell (empty when no Email column is mapped). -/
structure DebtorRow where
  fio : String
  debt : ℚ
  email : String
deriving DecidableEq

/-- One row of the outcome log `log_rows` (app.py lines 439-492). -/
structure LogRow where
  fio : String
  email : String
  debt : ℚ
  status : String
  comment : String
deriving DecidableEq

/-- The mutable state of the send-button handler: the outcome log, the
`ok` and `fail` counters, the monitoring store, and counters of the
performed SMTP send calls and pacing sleeps (observing the calls at
app.py lines 448 and 470-472). -/
structure LoopState where
  log_rows : List LogRow
  ok : ℕ
  fail : ℕ
  fs : MonStore
  sends : ℕ
  sleeps : ℕ
deriving DecidableEq

/-- Everything the loop body reads but never writes: recipient mode, SMTP
settings, dry-run flag, template, the dates rendered into the body, the
timestamp used for monitoring entries, and the SMTP transport.  The
transport is the external `send_email_smtp` collaborator, modelled as an
oracle mapping the row counter to `none` (delivered) or `some msg` (the
exception raised for that attempt, `str(e)`). -/
structure DispatchCtx where
  mode : RecipientMode
  cfg : SmtpConfig
  dry_run : Bool
  template : List TemplatePart
  todayS : String
  dueS : String
  now : String
  sender : ℕ → Option String

/-- Python `"@" in to_addr` (app.py line 433). -/
def hasAtSign (s : String) : Bool :=
  s.data.contains '@'

/-- The recipient resolution at app.py lines 421-425. -/
def row_addr (mode : RecipientMode) (row : DebtorRow) : String :=
  match mode with
  | RecipientMode.perRow => row.email
  | RecipientMode.shared common_email => common_email

/-- One iteration of the send loop (app.py lines 410-492).  The body is
composed before the `try` block (line 428), so a `make_body` error
escapes as `.error`; everything inside the `try` that raises
(`ValueError` for a bad address at line 434, a send exception at
line 448) is caught at line 483 and recorded as a `"Ошибка"` log row. -/
def process_row (ctx : DispatchCtx) (idx : ℕ) (row : DebtorRow) (st : LoopState) :
    Except String LoopState :=
  let fio := row.fio
  let debt := row.debt
  let to_addr := row_addr ctx.mode row
  match make_body ctx.template ctx.todayS ctx.dueS fio debt with
  | Except.error e => Except.error e
  | Except.ok _body =>
    if !hasAtSign to_addr then
      Except.ok { st with
        fail := st.fail + 1,
        log_rows := st.log_rows ++ [⟨fio, to_addr, debt, "Ошибка", "Некорректный Email адрес"⟩] }
    else if ctx.dry_run then
      Except.ok { st with
        ok := st.ok + 1,
        log_rows := st.log_rows ++ [⟨fio, to_addr, debt, "OK (dry-run)", "Тест (не отправлено)"⟩] }
    else
      match ctx.sender idx with
      | Option.none =>
        Except.ok { st with
          sends := st.sends + 1,
          fs := add_to_monitoring ctx.now fio debt "E-mail" "Доставлено (авто)"
            ("Отправлено на " ++ to_addr) st.fs,
          sleeps := st.sleeps + 1,
          ok := st.ok + 1,
          log_rows := st.log_rows ++ [⟨fio, to_addr, debt, "OK", ""⟩] }
      | Option.some msg =>
        Except.ok { st with
          sends := st.sends + 1,
          fail := st.fail + 1,
          log_rows := st.log_rows ++ [⟨fio, to_addr, debt, "Ошибка", msg⟩] }

/-- The send loop over the debtor rows (app.py line 410), with the 1-based
row counter of `enumerate(..., start=1)`. -/
def dispatch_loop (ctx : DispatchCtx) : List DebtorRow → ℕ → LoopState → Except String LoopState
  | [], _, st => Except.ok st
  | row :: rest, idx, st =>
    match process_row ctx idx row st with
    | Except.error e => Except.error e
    | Except.ok st' => dispatch_loop ctx rest (idx + 1) st'

/-- The state at the start of the handler (app.py lines 399-407). -/
def init_state (fs0 : MonStore) : LoopState :=
  ⟨[], 0, 0, fs0, 0, 0⟩

/-- The ways the send-button handler stops without completing the batch:
`st.stop()` on an empty debtor set (line 383), `st.stop()` on missing
send configuration (line 394), or an uncaught template `KeyError`
escaping the loop (line 428). -/
inductive BatchAbort
  | emptyDebtors
  | missingConfig (missing : List String)
  | templateError (e : String)
deriving DecidableEq

/-- The `missing` list of the pre-flight validation (app.py lines 387-390):
Python truthiness makes the empty string falsy, so `not smtp_host` is
`smtp_host = ""` and `smtp_user and not smtp_password` is
`smtp_user ≠ "" ∧ smtp_password = ""`. -/
def missing_config (cfg : SmtpConfig) : List String :=
  (if cfg.smtp_host = "" then ["SMTP host"] else []) ++
  (if cfg.from_addr = "" then ["From"] else []) ++
  (if cfg.smtp_user ≠ "" ∧ cfg.smtp_password = "" then ["SMTP password"] else [])

/-- The send-button handler (app.py lines 380-498): stop on an empty
debtor set; when not a dry run, stop if mandatory send configuration is
missing; otherwise run the dispatch loop from row counter 1. -/
def send_btn_run (ctx : DispatchCtx) (debtors : List DebtorRow) (fs0 : MonStore) :
    Except BatchAbort LoopState :=
  if debtors = [] then Except.error BatchAbort.emptyDebtors
  else if ctx.dry_run = false ∧ missing_config ctx.cfg ≠ [] then
    Except.error (BatchAbort.missingConfig (missing_config ctx.cfg))
  else
    match dispatch_loop ctx debtors 1 (init_state fs0) with
    | Except.error e => Except.error (BatchAbort.templateError e)
    | Except.ok st => Except.ok st

/-! ## Derived per-row and per-batch observables

`process_row` is re-expressed as a pure state transformer `step_state`
built from per-row observables, so that the batch-level claims can be
stated and proved by induction. -/

/-- Does every placeholder of the template belong to the recognized set
`{FIO, DEBT, TODAY, DUE}`? -/
def template_fields_ok : List TemplatePart → Bool
  | [] => true
  | TemplatePart.lit _ :: rest => template_fields_ok rest
  | TemplatePart.field n :: rest => decide (n ∈ TEMPLATE_FIELDS) && template_fields_ok rest

/-- Total rendering of a template all of whose placeholders are
recognized (unknown placeholders render as `""`, a case `make_body`
never reaches on such templates). -/
def render_body : List TemplatePart → String → String → String → ℚ → String
  | [], _, _, _, _ => ""
  | TemplatePart.lit s :: rest, todayS, dueS, fio, debt =>
    s ++ render_body rest todayS dueS fio debt
  | TemplatePart.field n :: rest, todayS, dueS, fio, debt =>
    (render_field n fio debt todayS dueS).getD "" ++ render_body rest todayS dueS fio debt

/-- The log row produced for one debtor row (app.py lines 439-492). -/
def row_log (ctx : DispatchCtx) (idx : ℕ) (row : DebtorRow) : LogRow :=
  let to_addr := row_addr ctx.mode row
  if !hasAtSign to_addr then
    ⟨row.fio, to_addr, row.debt, "Ошибка", "Некорректный Email адрес"⟩
  else if ctx.dry_run then
    ⟨row.fio, to_addr, row.debt, "OK (dry-run)", "Тест (не отправлено)"⟩
  else
    match ctx.sender idx with
    | Option.none => ⟨row.fio, to_addr, row.debt, "OK", ""⟩
    | Option.some msg => ⟨row.fio, to_addr, row.debt, "Ошибка", msg⟩

/-- `1` when the row is counted in `ok` (app.py lines 438, 474). -/
def row_ok_count (ctx : DispatchCtx) (idx : ℕ) (row : DebtorRow) : ℕ :=
  if !hasAtSign (row_addr ctx.mode row) then 0
  else if ctx.dry_run then 1
  else match ctx.sender idx with
    | Option.none => 1
    | Option.some _ => 0

/-- `1` when the row is counted in `fail` (app.py line 484). -/
def row_fail_count (ctx : DispatchCtx) (idx : ℕ) (row : DebtorRow) : ℕ :=
  1 - row_ok_count ctx idx row

/-- `1` when a real SMTP send is attempted for the row (app.py line 448). -/
def row_send_count (ctx : DispatchCtx) (_idx : ℕ) (row : DebtorRow) : ℕ :=
  if hasAtSign (row_addr ctx.mode row) && !ctx.dry_run then 1 else 0

/-- `1` when the pacing sleep runs for the row (app.py lines 469-472). -/
def row_sleep_count (ctx : DispatchCtx) (idx : ℕ) (row : DebtorRow) : ℕ :=
  if hasAtSign (row_addr ctx.mode row) && !ctx.dry_run && (ctx.sender idx).isNone then 1 else 0

/-- The monitoring entry written for a successfully sent row (app.py
lines 460-466). -/
def mkMonEntry (ctx : DispatchCtx) (row : DebtorRow) : MonEntry :=
  ⟨ctx.now, row.fio, row.debt, "E-mail", "Доставлено (авто)",
    "Отправлено на " ++ row_addr ctx.mode row⟩

/-- The monitoring store after one row: written through
`add_to_monitoring` exactly on a real, successful send. -/
def row_fs (ctx : DispatchCtx) (idx : ℕ) (row : DebtorRow) (fs : MonStore) : MonStore :=
  if hasAtSign (row_addr ctx.mode row) && !ctx.dry_run && (ctx.sender idx).isNone then
    add_to_monitoring ctx.now row.fio row.debt "E-mail" "Доставлено (авто)"
      ("Отправлено на " ++ row_addr ctx.mode row) fs
  else fs

/-- `process_row` as a total state transformer (its value whenever the
template is well-formed). -/
def step_state (ctx : DispatchCtx) (idx : ℕ) (row : DebtorRow) (st : LoopState) : LoopState :=
  { log_rows := st.log_rows ++ [row_log ctx idx row],
    ok := st.ok + row_ok_count ctx idx row,
    fail := st.fail + row_fail_count ctx idx row,
    fs := row_fs ctx idx row st.fs,
    sends := st.sends + row_send_count ctx idx row,
    sleeps := st.sleeps + row_sleep_count ctx idx row }

/-- The whole loop as a total state transformer. -/
def run_rows (ctx : DispatchCtx) : List DebtorRow → ℕ → LoopState → LoopState
  | [], _, st => st
  | row :: rest, idx, st => run_rows ctx rest (idx + 1) (step_state ctx idx row st)

/-- The outcome log of a batch, one row per debtor row, in order. -/
def batch_logs (ctx : DispatchCtx) : List DebtorRow → ℕ → List LogRow
  | [], _ => []
  | row :: rest, idx => row_log ctx idx row :: batch_logs ctx rest (idx + 1)

/-- Total `ok` count of a batch. -/
def batch_ok (ctx : DispatchCtx) : List DebtorRow → ℕ → ℕ
  | [], _ => 0
  | row :: rest, idx => row_ok_count ctx idx row + batch_ok ctx rest (idx + 1)

/-- Total `fail` count of a batch. -/
def batch_fail (ctx : DispatchCtx) : List DebtorRow → ℕ → ℕ
  | [], _ => 0
  | row :: rest, idx => row_fail_count ctx idx row + batch_fail ctx rest (idx + 1)

/-- Total number of SMTP send attempts of a batch. -/
def batch_sends (ctx : DispatchCtx) : List DebtorRow → ℕ → ℕ
  | [], _ => 0
  | row :: rest, idx => row_send_count ctx idx row + batch_sends ctx rest (idx + 1)

/-- Total number of pacing sleeps of a batch. -/
def batch_sleeps (ctx : DispatchCtx) : List DebtorRow → ℕ → ℕ
  | [], _ => 0
  | row :: rest, idx => row_sleep_count ctx idx row + batch_sleeps ctx rest (idx + 1)

/-- The monitoring store after a batch. -/
def batch_fs (ctx : DispatchCtx) : List DebtorRow → ℕ → MonStore → MonStore
  | [], _, fs => fs
  | row :: rest, idx, fs => batch_fs ctx rest (idx + 1) (row_fs ctx idx row fs)

/-- Decidable equality for `Except`, used to evaluate concrete runs. -/
instance {ε α : Type} [DecidableEq ε] [DecidableEq α] : DecidableEq (Except ε α) := fun x y =>
  match x, y with
  | Except.ok a, Except.ok b =>
    if h : a = b then isTrue (by rw [h]) else isFalse (by simp [h])
  | Except.error e, Except.error f =>
    if h : e = f then isTrue (by rw [h]) else isFalse (by simp [h])
  | Except.ok _, Except.error _ => isFalse (by simp)
  | Except.error _, Except.ok _ => isFalse (by simp)

/-! ## Concrete sample inputs (used to evaluate the theorems below) -/

/-- A well-formed template exercising all four placeholders. -/
def wTemplate : List TemplatePart :=
  [TemplatePart.lit "Уважаемый(ая), ", TemplatePart.field "FIO",
   TemplatePart.lit ", у Вас долг ", TemplatePart.field "DEBT",
   TemplatePart.lit " на ", TemplatePart.field "TODAY",
   TemplatePart.lit "; оплатить до ", TemplatePart.field "DUE", TemplatePart.lit "."]

/-- A template with an unrecognized placeholder. -/
def wBadTemplate : List TemplatePart :=
  [TemplatePart.lit "Долг по счету ", TemplatePart.field "ACCOUNT"]

/-- Sample debtor rows. -/
def wRowGood1 : DebtorRow := ⟨"Иванов И.И.", 100, "ivanov@mail.ru"⟩

/-- A row whose e-mail cell has no `"@"`. -/
def wRowBad : DebtorRow := ⟨"Петров П.П.", 250, "петров.мейл.ру"⟩

/-- Another valid-address row. -/
def wRowGood2 : DebtorRow := ⟨"Сидоров С.С.", 300, "sidorov@mail.ru"⟩

/-- A third valid-address row. -/
def wRowGood3 : DebtorRow := ⟨"Козлова А.А.", 50, "kozlova@mail.ru"⟩

/-- A dry-run context with complete SMTP settings. -/
def wCtxDry : DispatchCtx :=
  { mode := RecipientMode.perRow,
    cfg := ⟨"smtp.gmail.com", "from@mail.ru", "user", "pw"⟩,
    dry_run := true, template := wTemplate,
    todayS := "12.10.2026", dueS := "12.11.2026", now := "12.10.2026 12:00",
    sender := fun _ => Option.none }

/-- A real-send context whose transport raises only for row 2. -/
def wCtxReal : DispatchCtx :=
  { mode := RecipientMode.perRow,
    cfg := ⟨"smtp.gmail.com", "from@mail.ru", "user", "pw"⟩,
    dry_run := false, template := wTemplate,
    todayS := "12.10.2026", dueS := "12.11.2026", now := "12.10.2026 12:00",
    sender := fun i => if i = 2 then Option.some "SMTPException: boom" else Option.none }

/-- A real-send context with an empty SMTP host. -/
def wCtxNoHost : DispatchCtx :=
  { mode := RecipientMode.perRow,
    cfg := ⟨"", "from@mail.ru", "user", "pw"⟩,
    dry_run := false, template := wTemplate,
    todayS := "12.10.2026", dueS := "12.11.2026", now := "12.10.2026 12:00",
    sender := fun _ => Option.none }

/-- A dry-run context with a malformed template. -/
def wCtxBadTemplate : DispatchCtx :=
  { wCtxDry with template := wBadTemplate }

/-- A sample monitoring entry. -/
def wEntry : MonEntry :=
  ⟨"12.10.2026 12:00", "Иванов И.И.", 100, "E-mail", "Доставлено (авто)", "Отправлено на ivanov@mail.ru"⟩

/-- The header list of the spec's SchemaMapper example. -/
def wHeaders : List String :=
  ["Лицевой счет", "Ф.И.О.", "Долг, руб"]

/-- The alias list of the `Email` field, as in `ALIASES`. -/
def wEmailAliases : List String :=
  ["email", "e-mail", "электронная почта", "почта", "mail"]

/-! ## Characterization lemmas for the loop -/

lemma render_field_isSome (n fio : String) (debt : ℚ) (todayS dueS : String)
    (h : n ∈ TEMPLATE_FIELDS) : (render_field n fio debt todayS dueS).isSome := by
  simp only [TEMPLATE_FIELDS, List.mem_cons, List.not_mem_nil, or_false] at h
  rcases h with h | h | h | h <;> subst h <;> simp [render_field]

lemma make_body_eq_ok (template : List TemplatePart) (todayS dueS fio : String) (debt : ℚ)
    (h : template_fields_ok template = true) :
    make_body template todayS dueS fio debt =
      Except.ok (render_body template todayS dueS fio debt) := by
  induction template with
  | nil => rfl
  | cons p rest ih =>
    cases p with
    | lit s =>
      rw [template_fields_ok] at h
      simp [make_body, render_body, ih h, Except.map]
    | field n =>
      rw [template_fields_ok, Bool.and_eq_true] at h
      obtain ⟨hn, hrest⟩ := h
      obtain ⟨v, hv⟩ := Option.isSome_iff_exists.mp
        (render_field_isSome n fio debt todayS dueS (of_decide_eq_true hn))
      simp [make_body, render_body, hv, ih hrest, Except.map]

lemma process_row_eq (ctx : DispatchCtx) (idx : ℕ) (row : DebtorRow) (st : LoopState)
    (h : template_fields_ok ctx.template = true) :
    process_row ctx idx row st = Except.ok (step_state ctx idx row st) := by
  simp only [process_row, make_body_eq_ok ctx.template ctx.todayS ctx.dueS row.fio row.debt h]
  by_cases hA : hasAtSign (row_addr ctx.mode row)
  · by_cases hD : ctx.dry_run
    · simp [hA, hD, step_state, row_log, row_ok_count, row_fail_count, row_send_count,
        row_sleep_count, row_fs]
    · cases hS : ctx.sender idx with
      | none =>
        simp [hA, hD, hS, step_state, row_log, row_ok_count, row_fail_count, row_send_count,
          row_sleep_count, row_fs]
      | some msg =>
        simp [hA, hD, hS, step_state, row_log, row_ok_count, row_fail_count, row_send_count,
          row_sleep_count, row_fs]
  · simp [hA, step_state, row_log, row_ok_count, row_fail_count, row_send_count,
      row_sleep_count, row_fs]

lemma dispatch_loop_eq_run (ctx : DispatchCtx) (h : template_fields_ok ctx.template = true) :
    ∀ (rows : List DebtorRow) (idx : ℕ) (st : LoopState),
      dispatch_loop ctx rows idx st = Except.ok (run_rows ctx rows idx st) := by
  intro rows
  induction rows with
  | nil => intro idx st; rfl
  | cons row rest ih =>
    intro idx st
    rw [dispatch_loop, process_row_eq ctx idx row st h, run_rows]
    exact ih (idx + 1) (step_state ctx idx row st)

lemma run_rows_log (ctx : DispatchCtx) :
    ∀ (rows : List DebtorRow) (idx : ℕ) (st : LoopState),
      (run_rows ctx rows idx st).log_rows = st.log_rows ++ batch_logs ctx rows idx := by
  intro rows
  induction rows with
  | nil => intro idx st; simp [run_rows, batch_logs]
  | cons row rest ih =>
    intro idx st
    simp [run_rows, batch_logs, ih, step_state]

lemma run_rows_ok (ctx : DispatchCtx) :
    ∀ (rows : List DebtorRow) (idx : ℕ) (st : LoopState),
      (run_rows ctx rows idx st).ok = st.ok + batch_ok ctx rows idx := by
  intro rows
  induction rows with
  | nil => intro idx st; simp [run_rows, batch_ok]
  | cons row rest ih =>
    intro idx st
    simp [run_rows, batch_ok, ih, step_state]
    omega

lemma run_rows_fail (ctx : DispatchCtx) :
    ∀ (rows : List DebtorRow) (idx : ℕ) (st : LoopState),
      (run_rows ctx rows idx st).fail = st.fail + batch_fail ctx rows idx := by
  intro rows
  induction rows with
  | nil => intro idx st; simp [run_rows, batch_fail]
  | cons row rest ih =>
    intro idx st
    simp [run_rows, batch_fail, ih, step_state]
    omega

lemma run_rows_sends (ctx : DispatchCtx) :
    ∀ (rows : List DebtorRow) (idx : ℕ) (st : LoopState),
      (run_rows ctx rows idx st).sends = st.sends + batch_sends ctx rows idx := by
  intro rows
  induction rows with
  | nil => intro idx st; simp [run_rows, batch_sends]
  | cons row rest ih =>
    intro idx st
    simp [run_rows, batch_sends, ih, step_state]
    omega

lemma run_rows_sleeps (ctx : DispatchCtx) :
    ∀ (rows : List DebtorRow) (idx : ℕ) (st : LoopState),
      (run_rows ctx rows idx st).sleeps = st.sleeps + batch_sleeps ctx rows idx := by
  intro rows
  induction rows with
  | nil => intro idx st; simp [run_rows, batch_sleeps]
  | cons row rest ih =>
    intro idx st
    simp [run_rows, batch_sleeps, ih, step_state]
    omega

lemma run_rows_fs (ctx : DispatchCtx) :
    ∀ (rows : List DebtorRow) (idx : ℕ) (st : LoopState),
      (run_rows ctx rows idx st).fs = batch_fs ctx rows idx st.fs := by
  intro rows
  induction rows with
  | nil => intro idx st; simp [run_rows, batch_fs]
  | cons row rest ih =>
    intro idx st
    simp [run_rows, batch_fs, ih, step_state]

lemma batch_logs_length (ctx : DispatchCtx) :
    ∀ (rows : List DebtorRow) (idx : ℕ), (batch_logs ctx rows idx).length = rows.length := by
  intro rows
  induction rows with
  | nil => intro idx; rfl
  | cons row rest ih => intro idx; simp [batch_logs, ih]

lemma batch_logs_get (ctx : DispatchCtx) :
    ∀ (rows : List DebtorRow) (idx i : ℕ) (h : i < rows.length),
      (batch_logs ctx rows idx).get? i = Option.some (row_log ctx (idx + i) (rows.get ⟨i, h⟩)) := by
  intro rows
  induction rows with
  | nil => intro idx i h; exact absurd h (by simp)
  | cons row rest ih =>
    intro idx i h
    cases i with
    | zero => simp [batch_logs]
    | succ i =>
      have h' : i < rest.length := by simpa using h
      have harith : idx + 1 + i = idx + (i + 1) := by omega
      simpa [batch_logs, harith] using ih (idx + 1) i h'

lemma batch_ok_add_fail (ctx : DispatchCtx) :
    ∀ (rows : List DebtorRow) (idx : ℕ),
      batch_ok ctx rows idx + batch_fail ctx rows idx = rows.length := by
  intro rows
  induction rows with
  | nil => intro idx; rfl
  | cons row rest ih =>
    intro idx
    have hrow : row_ok_count ctx idx row + row_fail_count ctx idx row = 1 := by
      rw [row_fail_count]
      have : row_ok_count ctx idx row ≤ 1 := by
        rw [row_ok_count]
        split
        · omega
        · split
          · omega
          · split <;> omega
      omega
    simp only [batch_ok, batch_fail, List.length_cons]
    have := ih (idx + 1)
    omega

lemma batch_fs_dry (ctx : DispatchCtx) (hD : ctx.dry_run = true) :
    ∀ (rows : List DebtorRow) (idx : ℕ) (fs : MonStore),
      batch_fs ctx rows idx fs = fs := by
  intro rows
  induction rows with
  | nil => intro idx fs; rfl
  | cons row rest ih =>
    intro idx fs
    rw [batch_fs, row_fs, hD]
    simp only [Bool.not_true, Bool.and_false, Bool.false_and, if_neg Bool.false_ne_true]
    exact ih (idx + 1) fs

lemma batch_sends_dry (ctx : DispatchCtx) (hD : ctx.dry_run = true) :
    ∀ (rows : List DebtorRow) (idx : ℕ), batch_sends ctx rows idx = 0 := by
  intro rows
  induction rows with
  | nil => intro idx; rfl
  | cons row rest ih =>
    intro idx
    rw [batch_sends, row_send_count, hD]
    simp only [Bool.not_true, Bool.and_false, if_neg Bool.false_ne_true]
    simpa using ih (idx + 1)

lemma batch_sleeps_dry (ctx : DispatchCtx) (hD : ctx.dry_run = true) :
    ∀ (rows : List DebtorRow) (idx : ℕ), batch_sleeps ctx rows idx = 0 := by
  intro rows
  induction rows with
  | nil => intro idx; rfl
  | cons row rest ih =>
    intro idx
    rw [batch_sleeps, row_sleep_count, hD]
    simp only [Bool.not_true, Bool.and_false, Bool.false_and, if_neg Bool.false_ne_true]
    simpa using ih (idx + 1)

lemma load_row_fs (ctx : DispatchCtx) (idx : ℕ) (row : DebtorRow) (fs : MonStore) :
    load_monitoring_data (row_fs ctx idx row fs) =
      load_monitoring_data fs ++
        (if hasAtSign (row_addr ctx.mode row) && !ctx.dry_run && (ctx.sender idx).isNone then
          [mkMonEntry ctx row] else []) := by
  by_cases hc : (hasAtSign (row_addr ctx.mode row) && !ctx.dry_run && (ctx.sender idx).isNone) = true
  · simp [row_fs, hc, add_to_monitoring, save_monitoring_data, load_monitoring_data, mkMonEntry]
  · simp [row_fs, hc]

lemma load_batch_fs (ctx : DispatchCtx) :
    ∀ (rows : List DebtorRow) (idx : ℕ) (fs : MonStore),
      load_monitoring_data (batch_fs ctx rows idx fs) =
        load_monitoring_data fs ++
          (List.enumFrom idx rows).filterMap (fun p =>
            if hasAtSign (row_addr ctx.mode p.2) && !ctx.dry_run && (ctx.sender p.1).isNone then
              Option.some (mkMonEntry ctx p.2)
            else Option.none) := by
  intro rows
  induction rows with
  | nil => intro idx fs; simp [batch_fs, List.enumFrom]
  | cons row rest ih =>
    intro idx fs
    rw [batch_fs, ih (idx + 1) (row_fs ctx idx row fs), load_row_fs]
    by_cases hc : (hasAtSign (row_addr ctx.mode row) && !ctx.dry_run && (ctx.sender idx).isNone) = true
    · simp only [Bool.and_eq_true, Bool.not_eq_true', Option.isNone_iff_eq_none] at hc
      simp [List.enumFrom, List.filterMap_cons, hc]
    · simp only [Bool.and_eq_true, Bool.not_eq_true', Option.isNone_iff_eq_none] at hc
      simp [List.enumFrom, List.filterMap_cons, hc]

lemma batch_sends_eq_filter (ctx : DispatchCtx) :
    ∀ (rows : List DebtorRow) (idx : ℕ),
      batch_sends ctx rows idx =
        ((List.enumFrom idx rows).filter
          (fun p => hasAtSign (row_addr ctx.mode p.2) && !ctx.dry_run)).length := by
  intro rows
  induction rows with
  | nil => intro idx; rfl
  | cons row rest ih =>
    intro idx
    rw [batch_sends, row_send_count]
    by_cases hc : (hasAtSign (row_addr ctx.mode row) && !ctx.dry_run) = true
    · simp [List.enumFrom, List.filter, hc, ih (idx + 1)]
      omega
    · simp [List.enumFrom, List.filter, hc, ih (idx + 1)]

lemma process_row_counts (ctx : DispatchCtx) (idx : ℕ) (row : DebtorRow) (st st' : LoopState)
    (h : process_row ctx idx row st = Except.ok st') :
    st'.log_rows.length = st.log_rows.length + 1 ∧
      st'.ok + st'.fail = st.ok + st.fail + 1 := by
  simp only [process_row] at h
  cases hmb : make_body ctx.template ctx.todayS ctx.dueS row.fio row.debt with
  | error e => rw [hmb] at h; simp at h
  | ok body =>
    rw [hmb] at h
    simp only [] at h
    split at h
    · cases h
      exact ⟨by simp, by simp; omega⟩
    · split at h
      · cases h
        exact ⟨by simp, by simp; omega⟩
      · split at h
        · cases h
          exact ⟨by simp, by simp; omega⟩
        · cases h
          exact ⟨by simp, by simp; omega⟩

lemma dispatch_loop_counts (ctx : DispatchCtx) :
    ∀ (rows : List DebtorRow) (idx : ℕ) (st st' : LoopState),
      dispatch_loop ctx rows idx st = Except.ok st' →
      st'.log_rows.length = st.log_rows.length + rows.length ∧
        st'.ok + st'.fail = st.ok + st.fail + rows.length := by
  intro rows
  induction rows with
  | nil =>
    intro idx st st' h
    rw [dispatch_loop] at h
    cases h
    simp
  | cons row rest ih =>
    intro idx st st' h
    rw [dispatch_loop] at h
    cases hp : process_row ctx idx row st with
    | error e => rw [hp] at h; simp at h
    | ok st1 =>
      rw [hp] at h
      simp only [] at h
      obtain ⟨hl1, hc1⟩ := process_row_counts ctx idx row st st1 hp
      obtain ⟨hl2, hc2⟩ := ih (idx + 1) st1 st' h
      constructor
      · rw [hl2, hl1]; simp only [List.length_cons]; omega
      · rw [hc2, hc1]; simp only [List.length_cons]; omega

lemma missing_config_ne_nil (cfg : SmtpConfig) :
    missing_config cfg ≠ [] ↔
      cfg.smtp_host = "" ∨ cfg.from_addr = "" ∨
        (cfg.smtp_user ≠ "" ∧ cfg.smtp_password = "") := by
  unfold missing_config
  by_cases h1 : cfg.smtp_host = "" <;> by_cases h2 : cfg.from_addr = "" <;>
    by_cases h3 : cfg.smtp_user ≠ "" ∧ cfg.smtp_password = "" <;>
      simp [h1, h2, h3]

lemma find?_filter_congr {α : Type} (p q q' : α → Bool)
    (hpq : ∀ x, p x = true → q x = q' x) :
    ∀ l : List α, (l.filter q).find? p = (l.filter q').find? p := by
  intro l
  induction l with
  | nil => rfl
  | cons x t ih =>
    rw [List.filter_cons, List.filter_cons]
    by_cases hp : p x = true
    · rw [hpq x hp]
      cases hq' : q' x
      · simpa using ih
      · simp [List.find?_cons, hp]
    · have hp' : p x = false := by revert hp; cases p x <;> simp
      cases hq : q x <;> cases hq' : q' x <;>
        simp [List.find?_cons, hp', ih]

lemma find?_pyDictKeysGo (p : String → Bool) :
    ∀ (l seen : List String),
      (pyDictKeysGo l seen).find? p =
        (l.filter (fun c => !seen.contains c)).find? p := by
  intro l
  induction l with
  | nil => intro seen; rfl
  | cons c t ih =>
    intro seen
    rw [pyDictKeysGo, List.filter_cons]
    by_cases hseen : seen.contains c = true
    · rw [if_pos hseen, ih seen, hseen]
      simp
    · have hseen' : seen.contains c = false := by revert hseen; cases seen.contains c <;> simp
      rw [if_neg hseen, hseen']
      simp only [Bool.not_false, if_pos]
      by_cases hp : p c = true
      · simp [List.find?_cons, hp]
      · have hp' : p c = false := by revert hp; cases p c <;> simp
        rw [List.find?_cons, hp', ih (c :: seen)]
        simp only [List.find?_cons, hp']
        refine find?_filter_congr p _ _ ?_ t
        intro x hx
        have hxc : x ≠ c := fun hxs => by rw [hxs] at hx; rw [hx] at hp'; cases hp'
        simp [List.contains_cons, hxc]

lemma find?_pyDictKeys (p : String → Bool) (l : List String) :
    (pyDictKeys l).find? p = l.find? p := by
  rw [pyDictKeys, find?_pyDictKeysGo]
  congr 1
  have : ∀ x : String, (!([] : List String).contains x) = true := by intro x; rfl
  calc l.filter (fun c => !([] : List String).contains c)
      = l.filter (fun _ => true) := by
        apply List.filter_congr
        intro x _
        rfl
    _ = l := by simp

lemma clean_col_empty : _clean_col "" = "" := rfl

lemma scanColsGo_eq_find? (variants : List String)
    (hv : ∀ v ∈ variants, (_clean_col v).data ≠ []) :
    ∀ l : List String,
      scanColsGo variants (l.map (fun c => (c, _clean_col c))) Option.none =
        l.find? (fun c => aliasMatches variants (_clean_col c)) := by
  intro l
  induction l with
  | nil => rfl
  | cons c t ih =>
    rw [List.map_cons, scanColsGo]
    by_cases hm : aliasMatches variants (_clean_col c) = true
    · have hcne : c ≠ "" := by
        rw [aliasMatches, List.any_eq_true] at hm
        obtain ⟨v, hvmem, hinf⟩ := hm
        have hinf' : (_clean_col v).data <:+: (_clean_col c).data := of_decide_eq_true hinf
        intro hceq
        subst hceq
        have hdata : (_clean_col "").data = [] := rfl
        rw [hdata] at hinf'
        exact hv v hvmem (List.eq_nil_of_length_eq_zero
          (Nat.le_zero.mp (by simpa using hinf'.length_le)))
      simp only [hm, if_pos]
      have htruthy : pyTruthyStr (Option.some c) = true := by
        simp [pyTruthyStr, hcne]
      rw [if_pos htruthy, List.find?_cons, hm]
    · have hm' : aliasMatches variants (_clean_col c) = false := by
        revert hm; cases aliasMatches variants (_clean_col c) <;> simp
      simp only [hm', Bool.false_eq_true, if_neg, if_false]
      have : pyTruthyStr Option.none = false := rfl
      rw [if_neg (by simp [this]), List.find?_cons, hm']
      exact ih

lemma lookup_map_assoc {β : Type} (f : String × List String → β) :
    ∀ (l : List (String × List String)) (field : String) (variants : List String),
      (l.map Prod.fst).Nodup → (field, variants) ∈ l →
      List.lookup field (l.map (fun fv => (fv.1, f fv))) = Option.some (f (field, variants)) := by
  intro l
  induction l with
  | nil => intro field variants _ h; simp at h
  | cons a t ih =>
    intro field variants hnd hmem
    rw [List.map_cons]
    by_cases heq : field = a.1
    · rcases List.mem_cons.mp hmem with h | h
      · rw [← h]
        simp [List.lookup]
      · exfalso
        have hfst : field ∈ t.map Prod.fst := List.mem_map.mpr ⟨(field, variants), h, rfl⟩
        rw [List.map_cons] at hnd
        rw [heq] at hfst
        exact (List.nodup_cons.mp hnd).1 hfst
    · have hmem' : (field, variants) ∈ t := by
        rcases List.mem_cons.mp hmem with h | h
        · exact absurd (congrArg Prod.fst h) heq
        · exact h
      have hnd' : (t.map Prod.fst).Nodup := by
        rw [List.map_cons] at hnd
        exact (List.nodup_cons.mp hnd).2
      rw [List.lookup]
      simp only [beq_eq_false_iff_ne.mpr heq, if_neg]
      · exact ih field variants hnd' hmem'

lemma aliases_clean_nonempty :
    ∀ fv ∈ ALIASES, ∀ v ∈ fv.2, (_clean_col v).data ≠ [] := by decide

lemma aliases_keys_nodup : (ALIASES.map Prod.fst).Nodup := by decide

lemma scanCols_eq_find? (cols variants : List String)
    (hv : ∀ v ∈ variants, (_clean_col v).data ≠ []) :
    scanCols ((pyDictKeys cols).map (fun c => (c, _clean_col c))) variants =
      cols.find? (fun c => aliasMatches variants (_clean_col c)) := by
  rw [scanCols, scanColsGo_eq_find? variants hv (pyDictKeys cols), find?_pyDictKeys]

/-! ## The claims -/

/-- C3: `to_number` is a total function of the cell (never raises by
construction) and meets the spec's test vector:
`"1 234,56" ↦ 1234.56` (space thousands separator and comma decimal
point), `"" ↦ 0.0`, missing `↦ 0.0`, `"abc" ↦ 0.0`, and the native
numeric `-42 ↦ -42.0`. -/
theorem to_number_total_values :
    to_number (Cell.str "1 234,56") = 1234.56 ∧
    to_number (Cell.str "") = 0 ∧
    to_number Cell.none = 0 ∧
    to_number (Cell.str "abc") = 0 ∧
    to_number (Cell.num (-42)) = -42 := by
  refine ⟨?_, by decide, rfl, by decide, rfl⟩
  have h1 : cleanNumChars "1 234,56" = ['1', '2', '3', '4', '.', '5', '6'] := by decide
  have h2 : parsePyFloat ['1', '2', '3', '4', '.', '5', '6'] = Option.some (123456, 2) := by decide
  simp only [to_number, h1, h2]
  rw [if_neg (by decide)]
  rw [decimalVal]
  norm_num

/-- C5: debtor selection normalizes every row's debt cell with
`to_number`, retains exactly the rows with normalized debt strictly
greater than 0, attaches the normalized value, and preserves source
order; on the spec's vector `[100, 0, -5, "200,50"]` it retains exactly
two rows with normalized debts `[100.0, 200.5]` in that order. -/
theorem select_debtors_positive_filter :
    ((select_debtors [Cell.num 100, Cell.num 0, Cell.num (-5), Cell.str "200,50"]).map Prod.snd
      = [(100 : ℚ), 200.5]) ∧
    ∀ rows : List Cell, select_debtors rows =
      (rows.filter (fun c => decide (0 < to_number c))).map (fun c => (c, to_number c)) := by
  constructor
  · have e4 : to_number (Cell.str "200,50") = 200.5 := by
      have h1 : cleanNumChars "200,50" = ['2', '0', '0', '.', '5', '0'] := by decide
      have h2 : parsePyFloat ['2', '0', '0', '.', '5', '0'] = Option.some (20050, 2) := by decide
      simp only [to_number, h1, h2]
      rw [if_neg (by decide)]
      rw [decimalVal]
      norm_num
    simp only [select_debtors, List.map_cons, List.map_nil, List.filter_cons, List.filter_nil,
      show to_number (Cell.num 100) = 100 from rfl, show to_number (Cell.num 0) = 0 from rfl,
      show to_number (Cell.num (-5)) = -5 from rfl, e4]
    norm_num
  · intro rows
    induction rows with
    | nil => rfl
    | cons c t ih =>
      rw [select_debtors] at ih ⊢
      rw [List.map_cons, List.filter_cons, List.filter_cons]
      by_cases hc : decide (0 < to_number c) = true
      · simp only [hc, if_pos, List.map_cons, ih]
      · have hc' : decide (0 < to_number c) = false := by
          revert hc; cases decide (0 < to_number c) <;> simp
        simp only [hc', Bool.false_eq_true, if_neg, if_false, ih]

/-- C4: for every header list and every target field of `ALIASES`, the
schema mapper assigns the first header in the original column order whose
cleaned form contains some cleaned alias of the field as a substring
(`List.find?` of the match predicate); it yields `none` (unmapped) when no
header matches, and is total (never raises). -/
theorem auto_map_columns_first_match (cols : List String) (field : String)
    (variants : List String) (hmem : (field, variants) ∈ ALIASES) :
    List.lookup field (auto_map_columns cols) =
      Option.some (cols.find? (fun c => aliasMatches variants (_clean_col c))) := by
  simp only [auto_map_columns]
  rw [lookup_map_assoc (fun fv => scanCols ((pyDictKeys cols).map (fun c => (c, _clean_col c))) fv.2)
    ALIASES field variants aliases_keys_nodup hmem]
  rw [scanCols_eq_find? cols variants (aliases_clean_nonempty (field, variants) hmem)]

/-- Evaluation of `auto_map_columns_first_match` at the `Email` field over
the spec's sample headers. -/
theorem auto_map_columns_first_match_witness :
    (("Email", wEmailAliases) ∈ ALIASES) ∧
    List.lookup "Email" (auto_map_columns wHeaders) =
      Option.some (wHeaders.find? (fun c => aliasMatches wEmailAliases (_clean_col c))) :=
  ⟨by decide, auto_map_columns_first_match wHeaders "Email" wEmailAliases (by decide)⟩

/-- C8: saving a non-empty entry list to the monitoring store and loading
it back returns the same entries, order and field values preserved (the
pandas CSV codec is out of scope and modelled as an exact store). -/
theorem monitoring_roundtrip (entries : List MonEntry) (_h : entries ≠ []) :
    load_monitoring_data (save_monitoring_data entries) = entries := rfl

/-- Evaluation of `monitoring_roundtrip` on a concrete one-entry ledger. -/
theorem monitoring_roundtrip_witness :
    ([wEntry] ≠ []) ∧ load_monitoring_data (save_monitoring_data [wEntry]) = [wEntry] :=
  ⟨by decide, monitoring_roundtrip [wEntry] (by decide)⟩

/-- C1: per-row fault isolation.  (a) In any batch run with a well-formed
template, a row whose resolved address lacks `"@"` gets exactly the
Failure log row `"Ошибка"`/`"Некорректный Email адрес"` at its position,
while the loop still completes with one log row per debtor row.  (b) For
3 rows where only row 2 lacks `"@"` (and the sends of rows 1 and 3 go
through: dry run, or the transport not raising for them), the batch ends
with `ok = 2`, `fail = 1`, three log rows, the Failure at position 2, and
row 3 still attempted (its log row present with a Success status). -/
theorem dispatch_fault_isolation :
    (∀ (ctx : DispatchCtx) (rows : List DebtorRow) (fs0 : MonStore) (i : ℕ)
        (h : i < rows.length),
        template_fields_ok ctx.template = true →
        hasAtSign (row_addr ctx.mode (rows.get ⟨i, h⟩)) = false →
        ∃ st, dispatch_loop ctx rows 1 (init_state fs0) = Except.ok st ∧
          st.log_rows.length = rows.length ∧
          st.log_rows.get? i = Option.some
            ⟨(rows.get ⟨i, h⟩).fio, row_addr ctx.mode (rows.get ⟨i, h⟩),
              (rows.get ⟨i, h⟩).debt, "Ошибка", "Некорректный Email адрес"⟩) ∧
    (∀ (ctx : DispatchCtx) (r1 r2 r3 : DebtorRow) (fs0 : MonStore),
        template_fields_ok ctx.template = true →
        hasAtSign (row_addr ctx.mode r1) = true →
        hasAtSign (row_addr ctx.mode r2) = false →
        hasAtSign (row_addr ctx.mode r3) = true →
        (ctx.dry_run = true ∨ (ctx.sender 1 = Option.none ∧ ctx.sender 3 = Option.none)) →
        ∃ st, dispatch_loop ctx [r1, r2, r3] 1 (init_state fs0) = Except.ok st ∧
          st.ok = 2 ∧ st.fail = 1 ∧ st.log_rows.length = 3 ∧
          st.log_rows.get? 1 = Option.some
            ⟨r2.fio, row_addr ctx.mode r2, r2.debt, "Ошибка", "Некорректный Email адрес"⟩ ∧
          st.log_rows.get? 2 = Option.some (row_log ctx 3 r3) ∧
          ((row_log ctx 3 r3).status = "OK" ∨ (row_log ctx 3 r3).status = "OK (dry-run)")) := by
  constructor
  · intro ctx rows fs0 i h htpl hbad
    refine ⟨run_rows ctx rows 1 (init_state fs0), dispatch_loop_eq_run ctx htpl rows 1 _, ?_, ?_⟩
    · rw [run_rows_log]
      simp [init_state, batch_logs_length]
    · rw [run_rows_log]
      simp only [init_state, List.nil_append]
      rw [batch_logs_get ctx rows 1 i h]
      simp only [List.get_eq_getElem] at hbad ⊢
      simp [row_log, hbad]
  · intro ctx r1 r2 r3 fs0 htpl h1 h2 h3 hok
    have o1 : row_ok_count ctx 1 r1 = 1 := by
      rcases hok with hd | ⟨hs1, _⟩
      · simp [row_ok_count, h1, hd]
      · by_cases hd : ctx.dry_run
        · simp [row_ok_count, h1, hd]
        · simp [row_ok_count, h1, hd, hs1]
    have o2 : row_ok_count ctx 2 r2 = 0 := by simp [row_ok_count, h2]
    have o3 : row_ok_count ctx 3 r3 = 1 := by
      rcases hok with hd | ⟨_, hs3⟩
      · simp [row_ok_count, h3, hd]
      · by_cases hd : ctx.dry_run
        · simp [row_ok_count, h3, hd]
        · simp [row_ok_count, h3, hd, hs3]
    refine ⟨run_rows ctx [r1, r2, r3] 1 (init_state fs0),
      dispatch_loop_eq_run ctx htpl [r1, r2, r3] 1 _, ?_, ?_, ?_, ?_, ?_, ?_⟩
    · rw [run_rows_ok]
      simp [init_state, batch_ok, o1, o2, o3]
    · rw [run_rows_fail]
      simp [init_state, batch_fail, row_fail_count, o1, o2, o3]
    · rw [run_rows_log]
      simp [init_state, batch_logs_length]
    · rw [run_rows_log]
      simp only [init_state, List.nil_append]
      rw [batch_logs_get ctx [r1, r2, r3] 1 1 (by simp)]
      simp [row_log, h2]
    · rw [run_rows_log]
      simp only [init_state, List.nil_append]
      rw [batch_logs_get ctx [r1, r2, r3] 1 2 (by simp)]
      rfl
    · rcases hok with hd | ⟨_, hs3⟩
      · right; simp [row_log, h3, hd]
      · by_cases hd : ctx.dry_run
        · right; simp [row_log, h3, hd]
        · left; simp [row_log, h3, hd, hs3]

/-- Evaluation of `dispatch_fault_isolation` on concrete rows: a
single bad-address row, and the spec's 3-row batch with the bad address
in the middle (dry run). -/
theorem dispatch_fault_isolation_witness :
    (∃ st, dispatch_loop wCtxDry [wRowBad] 1 (init_state Option.none) = Except.ok st ∧
      st.log_rows.length = 1 ∧
      st.log_rows.get? 0 = Option.some
        ⟨wRowBad.fio, row_addr wCtxDry.mode wRowBad, wRowBad.debt,
          "Ошибка", "Некорректный Email адрес"⟩) ∧
    (∃ st, dispatch_loop wCtxDry [wRowGood1, wRowBad, wRowGood2] 1 (init_state Option.none) =
        Except.ok st ∧
      st.ok = 2 ∧ st.fail = 1 ∧ st.log_rows.length = 3 ∧
      st.log_rows.get? 1 = Option.some
        ⟨wRowBad.fio, row_addr wCtxDry.mode wRowBad, wRowBad.debt,
          "Ошибка", "Некорректный Email адрес"⟩ ∧
      st.log_rows.get? 2 = Option.some (row_log wCtxDry 3 wRowGood2) ∧
      ((row_log wCtxDry 3 wRowGood2).status = "OK" ∨
        (row_log wCtxDry 3 wRowGood2).status = "OK (dry-run)")) :=
  ⟨dispatch_fault_isolation.1 wCtxDry [wRowBad] Option.none 0 (by decide) (by decide) (by decide),
   dispatch_fault_isolation.2 wCtxDry wRowGood1 wRowBad wRowGood2 Option.none
     (by decide) (by decide) (by decide) (by decide) (Or.inl (by decide))⟩

/-- C2: dry-run frame condition.  With `dryRun = true` and a well-formed
template, the loop completes, the monitoring store is exactly the initial
one (no ledger write), no SMTP send call is made, no pacing sleep runs,
every row still gets a log row, and every row with a valid address gets
the `"OK (dry-run)"` outcome. -/
theorem dispatch_dry_run_frame (ctx : DispatchCtx) (rows : List DebtorRow) (fs0 : MonStore)
    (htpl : template_fields_ok ctx.template = true) (hd : ctx.dry_run = true) :
    ∃ st, dispatch_loop ctx rows 1 (init_state fs0) = Except.ok st ∧
      st.fs = fs0 ∧ st.sends = 0 ∧ st.sleeps = 0 ∧
      st.log_rows.length = rows.length ∧
      (∀ (i : ℕ) (h : i < rows.length),
        hasAtSign (row_addr ctx.mode (rows.get ⟨i, h⟩)) = true →
        st.log_rows.get? i = Option.some
          ⟨(rows.get ⟨i, h⟩).fio, row_addr ctx.mode (rows.get ⟨i, h⟩),
            (rows.get ⟨i, h⟩).debt, "OK (dry-run)", "Тест (не отправлено)"⟩) := by
  refine ⟨run_rows ctx rows 1 (init_state fs0), dispatch_loop_eq_run ctx htpl rows 1 _,
    ?_, ?_, ?_, ?_, ?_⟩
  · rw [run_rows_fs]
    exact batch_fs_dry ctx hd rows 1 (init_state fs0).fs
  · rw [run_rows_sends, batch_sends_dry ctx hd]
    rfl
  · rw [run_rows_sleeps, batch_sleeps_dry ctx hd]
    rfl
  · rw [run_rows_log]
    simp [init_state, batch_logs_length]
  · intro i h hA
    rw [run_rows_log]
    simp only [init_state, List.nil_append]
    rw [batch_logs_get ctx rows 1 i h]
    simp only [List.get_eq_getElem] at hA ⊢
    simp [row_log, hA, hd]

/-- Evaluation of `dispatch_dry_run_frame` on a two-row dry-run batch
over an initially absent monitoring file. -/
theorem dispatch_dry_run_frame_witness :
    ∃ st, dispatch_loop wCtxDry [wRowGood1, wRowBad] 1 (init_state Option.none) = Except.ok st ∧
      st.fs = Option.none ∧ st.sends = 0 ∧ st.sleeps = 0 ∧
      st.log_rows.length = 2 ∧
      (∀ (i : ℕ) (h : i < [wRowGood1, wRowBad].length),
        hasAtSign (row_addr wCtxDry.mode ([wRowGood1, wRowBad].get ⟨i, h⟩)) = true →
        st.log_rows.get? i = Option.some
          ⟨([wRowGood1, wRowBad].get ⟨i, h⟩).fio,
            row_addr wCtxDry.mode ([wRowGood1, wRowBad].get ⟨i, h⟩),
            ([wRowGood1, wRowBad].get ⟨i, h⟩).debt, "OK (dry-run)", "Тест (не отправлено)"⟩) :=
  dispatch_dry_run_frame wCtxDry [wRowGood1, wRowBad] Option.none (by decide) (by decide)

/-- C6: ledger write iff successful real send.  In a non-dry-run batch
with a well-formed template, the final monitoring store content is the
initial content (all prior entries preserved, appended by load-add-save)
followed by exactly one `mkMonEntry` (method `"E-mail"`, status
`"Доставлено (авто)"`) per row whose address passed validation and whose
send did not raise, in row order; the number of send attempts equals the
number of validated rows (each attempted exactly once — no retry); and a
row whose send raised `msg` gets the Failure log row with `msg` as its
detail (and, by the ledger equation, contributes no entry). -/
theorem ledger_write_iff_send_success (ctx : DispatchCtx) (rows : List DebtorRow) (fs0 : MonStore)
    (htpl : template_fields_ok ctx.template = true) (hd : ctx.dry_run = false) :
    ∃ st, dispatch_loop ctx rows 1 (init_state fs0) = Except.ok st ∧
      load_monitoring_data st.fs =
        load_monitoring_data fs0 ++
          (List.enumFrom 1 rows).filterMap (fun p =>
            if hasAtSign (row_addr ctx.mode p.2) && (ctx.sender p.1).isNone then
              Option.some (mkMonEntry ctx p.2)
            else Option.none) ∧
      st.sends = ((List.enumFrom 1 rows).filter
        (fun p => hasAtSign (row_addr ctx.mode p.2))).length ∧
      (∀ (i : ℕ) (h : i < rows.length) (msg : String),
        hasAtSign (row_addr ctx.mode (rows.get ⟨i, h⟩)) = true →
        ctx.sender (1 + i) = Option.some msg →
        st.log_rows.get? i = Option.some
          ⟨(rows.get ⟨i, h⟩).fio, row_addr ctx.mode (rows.get ⟨i, h⟩),
            (rows.get ⟨i, h⟩).debt, "Ошибка", msg⟩) := by
  refine ⟨run_rows ctx rows 1 (init_state fs0), dispatch_loop_eq_run ctx htpl rows 1 _,
    ?_, ?_, ?_⟩
  · rw [run_rows_fs]
    have hload := load_batch_fs ctx rows 1 (init_state fs0).fs
    simp only [hd, Bool.not_false, Bool.and_true] at hload
    exact hload
  · rw [run_rows_sends]
    have hsends := batch_sends_eq_filter ctx rows 1
    simp only [hd, Bool.not_false, Bool.and_true] at hsends
    rw [hsends]
    simp [init_state]
  · intro i h msg hA hS
    rw [run_rows_log]
    simp only [init_state, List.nil_append]
    rw [batch_logs_get ctx rows 1 i h]
    simp only [List.get_eq_getElem] at hA ⊢
    simp [row_log, hA, hd, hS]

/-- Evaluation of `ledger_write_iff_send_success` on a real-mode 3-row
batch whose transport raises only for row 2. -/
theorem ledger_write_iff_send_success_witness :
    ∃ st, dispatch_loop wCtxReal [wRowGood1, wRowGood2, wRowGood3] 1 (init_state Option.none) =
        Except.ok st ∧
      load_monitoring_data st.fs =
        load_monitoring_data Option.none ++
          (List.enumFrom 1 [wRowGood1, wRowGood2, wRowGood3]).filterMap (fun p =>
            if hasAtSign (row_addr wCtxReal.mode p.2) && (wCtxReal.sender p.1).isNone then
              Option.some (mkMonEntry wCtxReal p.2)
            else Option.none) ∧
      st.sends = ((List.enumFrom 1 [wRowGood1, wRowGood2, wRowGood3]).filter
        (fun p => hasAtSign (row_addr wCtxReal.mode p.2))).length ∧
      (∀ (i : ℕ) (h : i < [wRowGood1, wRowGood2, wRowGood3].length) (msg : String),
        hasAtSign (row_addr wCtxReal.mode ([wRowGood1, wRowGood2, wRowGood3].get ⟨i, h⟩)) = true →
        wCtxReal.sender (1 + i) = Option.some msg →
        st.log_rows.get? i = Option.some
          ⟨([wRowGood1, wRowGood2, wRowGood3].get ⟨i, h⟩).fio,
            row_addr wCtxReal.mode ([wRowGood1, wRowGood2, wRowGood3].get ⟨i, h⟩),
            ([wRowGood1, wRowGood2, wRowGood3].get ⟨i, h⟩).debt, "Ошибка", msg⟩) :=
  ledger_write_iff_send_success wCtxReal [wRowGood1, wRowGood2, wRowGood3] Option.none
    (by decide) (by decide)

lemma render_field_none (n fio : String) (debt : ℚ) (todayS dueS : String)
    (hn : n ∉ TEMPLATE_FIELDS) : render_field n fio debt todayS dueS = Option.none := by
  simp only [TEMPLATE_FIELDS, List.mem_cons, List.not_mem_nil, or_false, not_or] at hn
  simp [render_field, hn.1, hn.2.1, hn.2.2.1, hn.2.2.2]

lemma make_body_error_of_bad (template : List TemplatePart)
    (h : template_fields_ok template = false) (todayS dueS fio : String) (debt : ℚ) :
    ∃ e, make_body template todayS dueS fio debt = Except.error e ∧ e ∉ TEMPLATE_FIELDS := by
  induction template with
  | nil => simp [template_fields_ok] at h
  | cons p rest ih =>
    cases p with
    | lit s =>
      rw [template_fields_ok] at h
      obtain ⟨e, he, hmem⟩ := ih h
      exact ⟨e, by simp [make_body, he, Except.map], hmem⟩
    | field n =>
      by_cases hn : n ∈ TEMPLATE_FIELDS
      · have hrest : template_fields_ok rest = false := by
          rw [template_fields_ok] at h
          simpa [hn] using h
        obtain ⟨v, hv⟩ := Option.isSome_iff_exists.mp
          (render_field_isSome n fio debt todayS dueS hn)
        obtain ⟨e, he, hmem⟩ := ih hrest
        exact ⟨e, by simp [make_body, hv, he, Except.map], hmem⟩
      · exact ⟨n, by simp [make_body, render_field_none n fio debt todayS dueS hn], hn⟩

/-- C7: a template referencing a placeholder outside
`{FIO, DEBT, TODAY, DUE}` makes composition fail, and the failure is
propagated, not swallowed: on a non-empty batch that passes the
pre-flight checks, the handler ends in `BatchAbort.templateError` (an
unrecognized placeholder name) instead of any per-row Failure outcome —
the batch is stopped. -/
theorem template_error_propagates (ctx : DispatchCtx) (r : DebtorRow) (rs : List DebtorRow)
    (fs0 : MonStore) (hbad : template_fields_ok ctx.template = false)
    (hpass : ctx.dry_run = true ∨ missing_config ctx.cfg = []) :
    ∃ e, send_btn_run ctx (r :: rs) fs0 = Except.error (BatchAbort.templateError e) ∧
      e ∉ TEMPLATE_FIELDS := by
  obtain ⟨e, he, hmem⟩ :=
    make_body_error_of_bad ctx.template hbad ctx.todayS ctx.dueS r.fio r.debt
  refine ⟨e, ?_, hmem⟩
  rw [send_btn_run, if_neg (by simp)]
  have hcond : ¬(ctx.dry_run = false ∧ missing_config ctx.cfg ≠ []) := by
    rcases hpass with hdry | hmc
    · rintro ⟨hfalse, -⟩; rw [hdry] at hfalse; cases hfalse
    · rintro ⟨-, hne⟩; exact hne hmc
  rw [if_neg hcond, dispatch_loop]
  have hpr : process_row ctx 1 r (init_state fs0) = Except.error e := by
    simp only [process_row, he]
  rw [hpr]

/-- Evaluation of `template_error_propagates` on a dry-run batch with a
template referencing the unknown placeholder `ACCOUNT`. -/
theorem template_error_propagates_witness :
    ∃ e, send_btn_run wCtxBadTemplate [wRowGood1] Option.none =
        Except.error (BatchAbort.templateError e) ∧ e ∉ TEMPLATE_FIELDS :=
  template_error_propagates wCtxBadTemplate wRowGood1 [] Option.none
    (by decide) (Or.inl (by decide))

/-- C9: pre-flight fatal checks.  With a well-formed template, the
handler aborts (returns an error, processing no row) exactly when the
debtor set is empty or, outside dry-run, the SMTP host is empty, the
from-address is empty, or the login user is set while the password is
empty; every such abort is `emptyDebtors` or `missingConfig` (never a
row outcome), and in dry-run the configuration check is skipped. -/
theorem preflight_fatal_checks (ctx : DispatchCtx) (debtors : List DebtorRow) (fs0 : MonStore)
    (htpl : template_fields_ok ctx.template = true) :
    ((∃ e, send_btn_run ctx debtors fs0 = Except.error e) ↔
      (debtors = [] ∨ (ctx.dry_run = false ∧
        (ctx.cfg.smtp_host = "" ∨ ctx.cfg.from_addr = "" ∨
          (ctx.cfg.smtp_user ≠ "" ∧ ctx.cfg.smtp_password = ""))))) ∧
    (∀ e, send_btn_run ctx debtors fs0 = Except.error e →
      e = BatchAbort.emptyDebtors ∨ ∃ m, e = BatchAbort.missingConfig m) := by
  by_cases hD : debtors = []
  · constructor
    · rw [send_btn_run, if_pos hD]
      exact ⟨fun _ => Or.inl hD, fun _ => ⟨BatchAbort.emptyDebtors, rfl⟩⟩
    · intro e he
      rw [send_btn_run, if_pos hD] at he
      cases he
      exact Or.inl rfl
  · by_cases hC : ctx.dry_run = false ∧ missing_config ctx.cfg ≠ []
    · constructor
      · rw [send_btn_run, if_neg hD, if_pos hC]
        refine ⟨fun _ => Or.inr ⟨hC.1, (missing_config_ne_nil ctx.cfg).mp hC.2⟩, fun _ => ?_⟩
        exact ⟨BatchAbort.missingConfig (missing_config ctx.cfg), rfl⟩
      · intro e he
        rw [send_btn_run, if_neg hD, if_pos hC] at he
        cases he
        exact Or.inr ⟨missing_config ctx.cfg, rfl⟩
    · have hok : send_btn_run ctx debtors fs0 =
          Except.ok (run_rows ctx debtors 1 (init_state fs0)) := by
        rw [send_btn_run, if_neg hD, if_neg hC, dispatch_loop_eq_run ctx htpl debtors 1]
      constructor
      · rw [hok]
        constructor
        · rintro ⟨e, he⟩
          cases he
        · rintro (h | ⟨hdry, hmc⟩)
          · exact absurd h hD
          · exact absurd ⟨hdry, (missing_config_ne_nil ctx.cfg).mpr hmc⟩ hC
      · intro e he
        rw [hok] at he
        cases he

/-- Evaluation of `preflight_fatal_checks` in a real-send context with an
empty SMTP host over a non-empty debtor set: the handler returns an
error. -/
theorem preflight_fatal_checks_witness :
    ∃ e, send_btn_run wCtxNoHost [wRowGood1] Option.none = Except.error e :=
  (preflight_fatal_checks wCtxNoHost [wRowGood1] Option.none (by decide)).1.mpr
    (Or.inr ⟨by decide, Or.inl (by decide)⟩)

/-- C10: outcome-log completeness.  Whenever the handler's loop runs to
completion over the debtor rows, the outcome log holds exactly one record
per row and the success plus failure counters add up to the row count. -/
theorem outcome_log_complete (ctx : DispatchCtx) (debtors : List DebtorRow) (fs0 : MonStore)
    (st : LoopState) (h : send_btn_run ctx debtors fs0 = Except.ok st) :
    st.log_rows.length = debtors.length ∧ st.ok + st.fail = debtors.length := by
  rw [send_btn_run] at h
  by_cases hD : debtors = []
  · rw [if_pos hD] at h
    cases h
  · rw [if_neg hD] at h
    by_cases hC : ctx.dry_run = false ∧ missing_config ctx.cfg ≠ []
    · rw [if_pos hC] at h
      cases h
    · rw [if_neg hC] at h
      cases hdl : dispatch_loop ctx debtors 1 (init_state fs0) with
      | error e => rw [hdl] at h; cases h
      | ok st1 =>
        rw [hdl] at h
        injection h with h'
        subst h'
        simpa [init_state] using dispatch_loop_counts ctx debtors 1 (init_state fs0) _ hdl

/-- Evaluation of `outcome_log_complete` on a completed two-row dry-run
batch. -/
theorem outcome_log_complete_witness :
    send_btn_run wCtxDry [wRowGood1, wRowBad] Option.none =
        Except.ok (run_rows wCtxDry [wRowGood1, wRowBad] 1 (init_state Option.none)) ∧
      (run_rows wCtxDry [wRowGood1, wRowBad] 1 (init_state Option.none)).log_rows.length = 2 ∧
      (run_rows wCtxDry [wRowGood1, wRowBad] 1 (init_state Option.none)).ok +
        (run_rows wCtxDry [wRowGood1, wRowBad] 1 (init_state Option.none)).fail = 2 :=
  ⟨by decide,
   outcome_log_complete wCtxDry [wRowGood1, wRowBad] Option.none
     (run_rows wCtxDry [wRowGood1, wRowBad] 1 (init_state Option.none)) (by decide)⟩
